import Mathlib

/-!
Verification of the pwtools core specification against the repository
sources.  The implementation modules `crys.py` and `num.py` are not part
of the provided sources (only their tests and callers are), so the
functions they define are modelled from the specification, faithful to
its wording and pinned down by the assertions of the test files where
the spec leaves freedom.  `symmetry.py` is present and is embedded
directly.

Numeric conventions: floating point arithmetic is embedded as exact
arithmetic (ℚ where the claims are purely algebraic, ℝ where square
roots and inverse trigonometric functions occur), and "equal to
floating-point tolerance" becomes exact equality.
-/

namespace Pwtools

/-! ## BasisTransform: coord_trans / coord_trans3d

The coordinate array is embedded as a list of `d`-vectors: the array
axis marked by `axis` is the `Fin d` dimension, and all remaining axes
(atoms, extra trailing axes, ...) are flattened into the list.  Basis
matrices have their basis vectors as rows. -/

/-- Computable matrix inverse over ℚ (the library inverse is marked
noncomputable, but over a field it equals `det⁻¹ • adjugate`). -/
def matInv {d : ℕ} (A : Matrix (Fin d) (Fin d) ℚ) : Matrix (Fin d) (Fin d) ℚ :=
  A.det⁻¹ • A.adjugate

lemma matInv_eq_inv {d : ℕ} (A : Matrix (Fin d) (Fin d) ℚ) : matInv A = A⁻¹ := by
  rw [Matrix.inv_def, Ring.inverse_eq_inv]; rfl

/-- Modelled from the spec: `coord_trans(coords, old, new, axis)` from the
missing `crys.py`.  For each vector `v` laid out along `axis` it computes
`v_new = v_old · old_basis · inverse(new_basis)`; a singular `new` basis
fails with a `LinearAlgebraError`. -/
def coord_trans {d : ℕ} (coords : List (Fin d → ℚ))
    (old new : Matrix (Fin d) (Fin d) ℚ) : Except String (List (Fin d → ℚ)) :=
  if new.det ≠ 0 then
    .ok (coords.map (fun v => Matrix.vecMul (Matrix.vecMul v old) (matInv new)))
  else
    .error "LinearAlgebraError: singular new basis"

/-- Modelled from the spec: `coord_trans3d(coords, old, new, axis, timeaxis)`
from the missing `crys.py`.  The time axis (at `timeaxis`) is embedded as the
`Fin nstep` argument; for each time index the fixed-basis transform is applied
with that slice's basis matrices. -/
def coord_trans3d {nstep d : ℕ} (coords : Fin nstep → List (Fin d → ℚ))
    (old new : Fin nstep → Matrix (Fin d) (Fin d) ℚ) :
    Except String (Fin nstep → List (Fin d → ℚ)) :=
  if _h : ∀ t, (new t).det ≠ 0 then
    .ok (fun t => (coords t).map
      (fun v => Matrix.vecMul (Matrix.vecMul v (old t)) (matInv (new t))))
  else
    .error "LinearAlgebraError: singular new basis"

lemma vecMul_trans_trans {d : ℕ} (v : Fin d → ℚ)
    (A B : Matrix (Fin d) (Fin d) ℚ) (hA : A.det ≠ 0) (hB : B.det ≠ 0) :
    Matrix.vecMul (Matrix.vecMul (Matrix.vecMul (Matrix.vecMul v A) B⁻¹) B) A⁻¹ = v := by
  rw [Matrix.vecMul_vecMul, Matrix.vecMul_vecMul, Matrix.vecMul_vecMul]
  have hBu : IsUnit B.det := isUnit_iff_ne_zero.mpr hB
  have hAu : IsUnit A.det := isUnit_iff_ne_zero.mpr hA
  have : A * B⁻¹ * (B * A⁻¹) = 1 := by
    calc A * B⁻¹ * (B * A⁻¹) = A * (B⁻¹ * B) * A⁻¹ := by
          rw [Matrix.mul_assoc, Matrix.mul_assoc, Matrix.mul_assoc]
      _ = A * A⁻¹ := by rw [Matrix.nonsing_inv_mul _ hBu, Matrix.mul_one]
      _ = 1 := Matrix.mul_nonsing_inv _ hAu
  rw [← Matrix.mul_assoc, this, Matrix.vecMul_one]

/-- C1: for every coordinate array `X` (embedded as the list of its
`d`-vectors along the chosen axis) and basis matrices `A`, `B`, if both are
invertible then transforming from `A` to `B` and back returns `X`, and if
`A` or `B` is singular the round trip fails with a `LinearAlgebraError`. -/
theorem coord_trans_roundtrip {d : ℕ} (X : List (Fin d → ℚ))
    (A B : Matrix (Fin d) (Fin d) ℚ) :
    (A.det ≠ 0 → B.det ≠ 0 →
      (coord_trans X A B).bind (fun Y => coord_trans Y B A) = .ok X) ∧
    (A.det = 0 ∨ B.det = 0 →
      ∃ msg, (coord_trans X A B).bind (fun Y => coord_trans Y B A) = .error msg) := by
  constructor
  · intro hA hB
    simp only [coord_trans, if_pos hB, if_pos hA, Except.bind, matInv_eq_inv]
    rw [List.map_map]
    have hmap : ∀ (xs : List (Fin d → ℚ)),
        List.map ((fun v => Matrix.vecMul (Matrix.vecMul v B) A⁻¹) ∘
          fun v => Matrix.vecMul (Matrix.vecMul v A) B⁻¹) xs = xs := by
      intro xs
      induction xs with
      | nil => rfl
      | cons v t ih =>
        simp only [List.map_cons, Function.comp_apply, ih,
          vecMul_trans_trans v A B hA hB]
    rw [hmap]
  · intro h
    rcases h with hA | hB
    · by_cases hB : B.det = 0
      · exact ⟨"LinearAlgebraError: singular new basis",
          by simp [coord_trans, hB, Except.bind]⟩
      · exact ⟨"LinearAlgebraError: singular new basis",
          by simp [coord_trans, hA, hB, Except.bind]⟩
    · exact ⟨"LinearAlgebraError: singular new basis",
        by simp [coord_trans, hB, Except.bind]⟩

/-- Witness for C1 at a concrete input. -/
theorem coord_trans_roundtrip_witness :
    ((Matrix.of ![![(1 : ℚ), 0], ![1, 1]]).det ≠ 0 ∧
     (Matrix.of ![![(2 : ℚ), 0], ![0, 1]]).det ≠ 0) ∧
    (coord_trans [![(3 : ℚ), 5]] (Matrix.of ![![(1 : ℚ), 0], ![1, 1]])
        (Matrix.of ![![(2 : ℚ), 0], ![0, 1]])).bind
      (fun Y => coord_trans Y (Matrix.of ![![(2 : ℚ), 0], ![0, 1]])
        (Matrix.of ![![(1 : ℚ), 0], ![1, 1]])) = .ok [![(3 : ℚ), 5]] := by
  have hA : (Matrix.of ![![(1 : ℚ), 0], ![1, 1]]).det ≠ 0 := by
    rw [Matrix.det_fin_two_of]; norm_num
  have hB : (Matrix.of ![![(2 : ℚ), 0], ![0, 1]]).det ≠ 0 := by
    rw [Matrix.det_fin_two_of]; norm_num
  exact ⟨⟨hA, hB⟩, (coord_trans_roundtrip _ _ _).1 hA hB⟩

/-- C6: with the identity as `old_basis`, the transform multiplies by the
inverse of `new_basis` (`X · B⁻¹`), the back-transform with the identity as
`new_basis` multiplies by `B` itself (rows of `B` as basis vectors, the
dot-product form), and the identity-to-identity transform returns the input
exactly. -/
theorem coord_trans_identity {d : ℕ} (X : List (Fin d → ℚ))
    (B : Matrix (Fin d) (Fin d) ℚ) :
    (B.det ≠ 0 →
      coord_trans X 1 B = .ok (X.map (fun v => Matrix.vecMul v B⁻¹)) ∧
      ∀ Y : List (Fin d → ℚ),
        coord_trans Y B 1 = .ok (Y.map (fun v => Matrix.vecMul v B))) ∧
    coord_trans X 1 1 = .ok X := by
  refine ⟨fun hB => ⟨?_, fun Y => ?_⟩, ?_⟩
  · simp [coord_trans, hB, matInv_eq_inv, Matrix.vecMul_one]
  · simp [coord_trans, matInv_eq_inv, inv_one, Matrix.det_one,
      Matrix.vecMul_one]
  · simp [coord_trans, matInv_eq_inv, inv_one, Matrix.det_one,
      Matrix.vecMul_one]

/-- Witness for C6 at a concrete invertible basis. -/
theorem coord_trans_identity_witness :
    (Matrix.of ![![(2 : ℚ), 0], ![1, 1]]).det ≠ 0 ∧
    coord_trans [![(4 : ℚ), 6]] 1 (Matrix.of ![![(2 : ℚ), 0], ![1, 1]]) =
      .ok ([![(4 : ℚ), 6]].map
        (fun v => Matrix.vecMul v (Matrix.of ![![(2 : ℚ), 0], ![1, 1]])⁻¹)) := by
  have hB : (Matrix.of ![![(2 : ℚ), 0], ![1, 1]]).det ≠ 0 := by
    rw [Matrix.det_fin_two_of]; norm_num
  exact ⟨hB, ((coord_trans_identity _ _).1 hB).1⟩

/-- C5: when every time-slice's new basis is invertible, the batched
time-varying transform succeeds and its result at each time index equals the
fixed-basis transform applied to that time slice with that slice's basis
matrices. -/
theorem coord_trans3d_per_slice {nstep d : ℕ}
    (coords : Fin nstep → List (Fin d → ℚ))
    (old new : Fin nstep → Matrix (Fin d) (Fin d) ℚ)
    (h : ∀ t, (new t).det ≠ 0) :
    ∃ r, coord_trans3d coords old new = .ok r ∧
      ∀ t, coord_trans (coords t) (old t) (new t) = .ok (r t) := by
  refine ⟨_, by rw [coord_trans3d, dif_pos h], fun t => ?_⟩
  simp [coord_trans, h t]

/-- Witness for C5 at a concrete one-step input. -/
theorem coord_trans3d_per_slice_witness :
    (∀ t : Fin 1, ((fun _ : Fin 1 => Matrix.of ![![(3 : ℚ), 0], ![0, 1]]) t).det ≠ 0) ∧
    ∃ r, coord_trans3d (fun _ : Fin 1 => [![(1 : ℚ), 2]])
        (fun _ => Matrix.of ![![(1 : ℚ), 1], ![0, 1]])
        (fun _ => Matrix.of ![![(3 : ℚ), 0], ![0, 1]]) = .ok r ∧
      ∀ t : Fin 1, coord_trans [![(1 : ℚ), 2]]
        (Matrix.of ![![(1 : ℚ), 1], ![0, 1]])
        (Matrix.of ![![(3 : ℚ), 0], ![0, 1]]) = .ok (r t) := by
  have h : ∀ t : Fin 1,
      ((fun _ : Fin 1 => Matrix.of ![![(3 : ℚ), 0], ![0, 1]]) t).det ≠ 0 := by
    intro t
    rw [Matrix.det_fin_two_of]; norm_num
  exact ⟨h, coord_trans3d_per_slice _ _ _ h⟩

/-! ## Cell geometry: cell2cc / cc2cell / volume

Lengths are Euclidean norms of the cell rows, angles are in degrees as in
the source tests (a cubic cell has `cryst_const = [1,1,1,90,90,90]`). -/

/-- Dot product of two 3-vectors. -/
def dot3 (v w : Fin 3 → ℝ) : ℝ := v 0 * w 0 + v 1 * w 1 + v 2 * w 2

/-- Euclidean norm of a 3-vector. -/
noncomputable def norm3 (v : Fin 3 → ℝ) : ℝ := Real.sqrt (dot3 v v)

/-- Cosine of an angle given in degrees. -/
noncomputable def cosd (x : ℝ) : ℝ := Real.cos (x * Real.pi / 180)

/-- Sine of an angle given in degrees. -/
noncomputable def sind (x : ℝ) : ℝ := Real.sin (x * Real.pi / 180)

/-- Arc cosine returning degrees. -/
noncomputable def acosd (x : ℝ) : ℝ := Real.arccos x * 180 / Real.pi

/-- Modelled from the spec: `cell2cc(cell)` from the missing `crys.py`.
The six crystallographic constants `[a,b,c,alpha,beta,gamma]` of a cell
whose rows are the lattice vectors; `alpha` is the angle between rows 1
and 2, `beta` between rows 0 and 2, `gamma` between rows 0 and 1. -/
noncomputable def cell2cc (M : Matrix (Fin 3) (Fin 3) ℝ) : Fin 6 → ℝ :=
  ![norm3 (M 0), norm3 (M 1), norm3 (M 2),
    acosd (dot3 (M 1) (M 2) / (norm3 (M 1) * norm3 (M 2))),
    acosd (dot3 (M 0) (M 2) / (norm3 (M 0) * norm3 (M 2))),
    acosd (dot3 (M 0) (M 1) / (norm3 (M 0) * norm3 (M 1)))]

/-- Modelled from the spec: `cc2cell(cryst_const)` from the missing
`crys.py`: the standard-orientation cell reconstructed from the six
crystallographic constants (first row along x, second row in the x-y
plane); the orientation is fixed but in general differs from the cell
the constants were measured on. -/
noncomputable def cc2cell (cc : Fin 6 → ℝ) : Matrix (Fin 3) (Fin 3) ℝ :=
  Matrix.of
    ![![cc 0, 0, 0],
      ![cc 1 * cosd (cc 5), cc 1 * sind (cc 5), 0],
      ![cc 2 * cosd (cc 4),
        cc 2 * ((cosd (cc 3) - cosd (cc 4) * cosd (cc 5)) / sind (cc 5)),
        cc 2 * Real.sqrt (1 - cosd (cc 4) ^ 2 -
          ((cosd (cc 3) - cosd (cc 4) * cosd (cc 5)) / sind (cc 5)) ^ 2)]]

/-- Modelled from the spec: `volume_cell(cell)` from the missing `crys.py`,
the (unsigned) volume spanned by the rows of the cell. -/
noncomputable def volume_cell (M : Matrix (Fin 3) (Fin 3) ℝ) : ℝ := |M.det|

lemma dot3_sq_le_dot3_mul_dot3 (v w : Fin 3 → ℝ) :
    dot3 v w ^ 2 ≤ dot3 v v * dot3 w w := by
  simp only [dot3]
  nlinarith [sq_nonneg (v 0 * w 1 - v 1 * w 0), sq_nonneg (v 0 * w 2 - v 2 * w 0),
    sq_nonneg (v 1 * w 2 - v 2 * w 1)]

lemma norm3_pos {v : Fin 3 → ℝ} (h : 0 < dot3 v v) : 0 < norm3 v :=
  Real.sqrt_pos.mpr h

lemma sq_norm3 {v : Fin 3 → ℝ} (h : 0 ≤ dot3 v v) : norm3 v ^ 2 = dot3 v v :=
  Real.sq_sqrt h

lemma cosd_acosd {x : ℝ} (h1 : -1 ≤ x) (h2 : x ≤ 1) : cosd (acosd x) = x := by
  have hpi : Real.pi ≠ 0 := Real.pi_ne_zero
  have : acosd x * Real.pi / 180 = Real.arccos x := by
    simp only [acosd]; field_simp
  rw [cosd, this, Real.cos_arccos h1 h2]

lemma sind_acosd (x : ℝ) : sind (acosd x) = Real.sqrt (1 - x ^ 2) := by
  have hpi : Real.pi ≠ 0 := Real.pi_ne_zero
  have : acosd x * Real.pi / 180 = Real.arccos x := by
    simp only [acosd]; field_simp
  rw [sind, this, Real.sin_arccos]

lemma acosd_cosd {x : ℝ} (h1 : 0 ≤ x) (h2 : x ≤ 180) : acosd (cosd x) = x := by
  have hpi : 0 < Real.pi := Real.pi_pos
  have hx1 : 0 ≤ x * Real.pi / 180 := by positivity
  have hx2 : x * Real.pi / 180 ≤ Real.pi := by
    rw [div_le_iff₀ (by norm_num : (0:ℝ) < 180)]
    nlinarith
  rw [acosd, cosd, Real.arccos_cos hx1 hx2]
  field_simp

lemma acosd_nonneg (x : ℝ) : 0 ≤ acosd x := by
  have := Real.arccos_nonneg x
  have hpi : 0 < Real.pi := Real.pi_pos
  rw [acosd]
  positivity

lemma acosd_le_180 (x : ℝ) : acosd x ≤ 180 := by
  have h := Real.arccos_le_pi x
  have hpi : 0 < Real.pi := Real.pi_pos
  rw [acosd, div_le_iff₀ hpi]
  nlinarith

lemma acosd_pos {x : ℝ} (h : x < 1) : 0 < acosd x := by
  have := Real.arccos_pos.mpr h
  have hpi : 0 < Real.pi := Real.pi_pos
  rw [acosd]
  positivity

lemma acosd_lt_180 {x : ℝ} (h : -1 < x) : acosd x < 180 := by
  have hpi : 0 < Real.pi := Real.pi_pos
  have hne : Real.arccos x ≠ Real.pi := by
    intro hcontra
    exact absurd (Real.arccos_eq_pi.mp hcontra) (not_le.mpr h)
  have hlt : Real.arccos x < Real.pi := lt_of_le_of_ne (Real.arccos_le_pi x) hne
  rw [acosd, div_lt_iff₀ hpi]
  nlinarith

lemma sind_pos_of_lt_180 {x : ℝ} (h1 : 0 < x) (h2 : x < 180) : 0 < sind x := by
  have hpi : 0 < Real.pi := Real.pi_pos
  refine Real.sin_pos_of_pos_of_lt_pi (by positivity) ?_
  rw [div_lt_iff₀ (by norm_num : (0:ℝ) < 180)]
  nlinarith

/-- Round trip of the crystallographic constants through the derived cell:
`cell2cc (cc2cell cc) = cc` for any valid constants (positive lengths,
angles in range, non-degenerate cell). -/
lemma cell2cc_cc2cell (cc : Fin 6 → ℝ)
    (ha : 0 < cc 0) (hb : 0 < cc 1) (hc : 0 < cc 2)
    (hal1 : 0 ≤ cc 3) (hal2 : cc 3 ≤ 180)
    (hbe1 : 0 ≤ cc 4) (hbe2 : cc 4 ≤ 180)
    (hga1 : 0 < cc 5) (hga2 : cc 5 < 180)
    (harg : 0 ≤ 1 - cosd (cc 4) ^ 2 -
      ((cosd (cc 3) - cosd (cc 4) * cosd (cc 5)) / sind (cc 5)) ^ 2) :
    cell2cc (cc2cell cc) = cc := by
  have hsg : 0 < sind (cc 5) := sind_pos_of_lt_180 hga1 hga2
  have hsc : sind (cc 5) ^ 2 + cosd (cc 5) ^ 2 = 1 := Real.sin_sq_add_cos_sq _
  set a := cc 0
  set b := cc 1
  set c := cc 2
  set ca := cosd (cc 3) with hca_def
  set cb := cosd (cc 4) with hcb_def
  set cg := cosd (cc 5) with hcg_def
  set sg := sind (cc 5) with hsg_def
  set cy := (ca - cb * cg) / sg with hcy_def
  set cz := Real.sqrt (1 - cb ^ 2 - cy ^ 2) with hcz_def
  have hcz2 : cz ^ 2 = 1 - cb ^ 2 - cy ^ 2 := Real.sq_sqrt harg
  have hrow0 : cc2cell cc 0 = ![a, 0, 0] := rfl
  have hrow1 : cc2cell cc 1 = ![b * cg, b * sg, 0] := rfl
  have hrow2 : cc2cell cc 2 = ![c * cb, c * cy, c * cz] := rfl
  have hn0 : norm3 (cc2cell cc 0) = a := by
    rw [hrow0, norm3]
    have : dot3 ![a, 0, 0] ![a, 0, 0] = a ^ 2 := by
      simp [dot3]; ring
    rw [this, Real.sqrt_sq ha.le]
  have hn1 : norm3 (cc2cell cc 1) = b := by
    rw [hrow1, norm3]
    have : dot3 ![b * cg, b * sg, 0] ![b * cg, b * sg, 0] = b ^ 2 := by
      simp [dot3]
      linear_combination b ^ 2 * hsc
    rw [this, Real.sqrt_sq hb.le]
  have hn2 : norm3 (cc2cell cc 2) = c := by
    rw [hrow2, norm3]
    have : dot3 ![c * cb, c * cy, c * cz] ![c * cb, c * cy, c * cz] = c ^ 2 := by
      simp [dot3]
      linear_combination c ^ 2 * hcz2
    rw [this, Real.sqrt_sq hc.le]
  have hd01 : dot3 (cc2cell cc 0) (cc2cell cc 1) = a * b * cg := by
    rw [hrow0, hrow1]; simp [dot3]; ring
  have hd02 : dot3 (cc2cell cc 0) (cc2cell cc 2) = a * c * cb := by
    rw [hrow0, hrow2]; simp [dot3]; ring
  have hd12 : dot3 (cc2cell cc 1) (cc2cell cc 2) = b * c * ca := by
    rw [hrow1, hrow2]
    have hsgy : sg * cy = ca - cb * cg := by
      rw [hcy_def]
      field_simp
    simp [dot3]
    calc b * cg * (c * cb) + b * sg * (c * cy)
        = b * c * (cg * cb) + b * c * (sg * cy) := by ring
      _ = b * c * (cg * cb) + b * c * (ca - cb * cg) := by rw [hsgy]
      _ = b * c * ca := by ring
  have hq5 : dot3 (cc2cell cc 0) (cc2cell cc 1) /
      (norm3 (cc2cell cc 0) * norm3 (cc2cell cc 1)) = cg := by
    rw [hd01, hn0, hn1]
    field_simp
  have hq4 : dot3 (cc2cell cc 0) (cc2cell cc 2) /
      (norm3 (cc2cell cc 0) * norm3 (cc2cell cc 2)) = cb := by
    rw [hd02, hn0, hn2]
    field_simp
  have hq3 : dot3 (cc2cell cc 1) (cc2cell cc 2) /
      (norm3 (cc2cell cc 1) * norm3 (cc2cell cc 2)) = ca := by
    rw [hd12, hn1, hn2]
    field_simp
  funext i
  fin_cases i
  · exact hn0
  · exact hn1
  · exact hn2
  · show acosd (dot3 (cc2cell cc 1) (cc2cell cc 2) /
      (norm3 (cc2cell cc 1) * norm3 (cc2cell cc 2))) = cc 3
    rw [hq3, hca_def, acosd_cosd hal1 hal2]
  · show acosd (dot3 (cc2cell cc 0) (cc2cell cc 2) /
      (norm3 (cc2cell cc 0) * norm3 (cc2cell cc 2))) = cc 4
    rw [hq4, hcb_def, acosd_cosd hbe1 hbe2]
  · show acosd (dot3 (cc2cell cc 0) (cc2cell cc 1) /
      (norm3 (cc2cell cc 0) * norm3 (cc2cell cc 1))) = cc 5
    rw [hq5, hcg_def, acosd_cosd hga1.le hga2.le]

lemma det_sq_eq (M : Matrix (Fin 3) (Fin 3) ℝ) :
    M.det ^ 2 = dot3 (M 0) (M 0) * dot3 (M 1) (M 1) * dot3 (M 2) (M 2)
      - dot3 (M 0) (M 0) * dot3 (M 1) (M 2) ^ 2
      - dot3 (M 1) (M 1) * dot3 (M 0) (M 2) ^ 2
      - dot3 (M 2) (M 2) * dot3 (M 0) (M 1) ^ 2
      + 2 * dot3 (M 0) (M 1) * dot3 (M 0) (M 2) * dot3 (M 1) (M 2) := by
  rw [Matrix.det_fin_three]
  unfold dot3
  ring

lemma cell2cc_0 (M : Matrix (Fin 3) (Fin 3) ℝ) : cell2cc M 0 = norm3 (M 0) := rfl

lemma cell2cc_1 (M : Matrix (Fin 3) (Fin 3) ℝ) : cell2cc M 1 = norm3 (M 1) := rfl

lemma cell2cc_2 (M : Matrix (Fin 3) (Fin 3) ℝ) : cell2cc M 2 = norm3 (M 2) := rfl

lemma cell2cc_3 (M : Matrix (Fin 3) (Fin 3) ℝ) :
    cell2cc M 3 = acosd (dot3 (M 1) (M 2) / (norm3 (M 1) * norm3 (M 2))) := rfl

lemma cell2cc_4 (M : Matrix (Fin 3) (Fin 3) ℝ) :
    cell2cc M 4 = acosd (dot3 (M 0) (M 2) / (norm3 (M 0) * norm3 (M 2))) := rfl

lemma cell2cc_5 (M : Matrix (Fin 3) (Fin 3) ℝ) :
    cell2cc M 5 = acosd (dot3 (M 0) (M 1) / (norm3 (M 0) * norm3 (M 1))) := rfl

lemma det_cc2cell (cc : Fin 6 → ℝ) :
    (cc2cell cc).det = cc 0 * (cc 1 * sind (cc 5)) *
      (cc 2 * Real.sqrt (1 - cosd (cc 4) ^ 2 -
        ((cosd (cc 3) - cosd (cc 4) * cosd (cc 5)) / sind (cc 5)) ^ 2)) := by
  have e00 : cc2cell cc 0 0 = cc 0 := rfl
  have e01 : cc2cell cc 0 1 = 0 := rfl
  have e02 : cc2cell cc 0 2 = 0 := rfl
  have e10 : cc2cell cc 1 0 = cc 1 * cosd (cc 5) := rfl
  have e11 : cc2cell cc 1 1 = cc 1 * sind (cc 5) := rfl
  have e12 : cc2cell cc 1 2 = 0 := rfl
  have e20 : cc2cell cc 2 0 = cc 2 * cosd (cc 4) := rfl
  have e21 : cc2cell cc 2 1 =
      cc 2 * ((cosd (cc 3) - cosd (cc 4) * cosd (cc 5)) / sind (cc 5)) := rfl
  have e22 : cc2cell cc 2 2 = cc 2 * Real.sqrt (1 - cosd (cc 4) ^ 2 -
      ((cosd (cc 3) - cosd (cc 4) * cosd (cc 5)) / sind (cc 5)) ^ 2) := rfl
  rw [Matrix.det_fin_three, e00, e01, e02, e10, e11, e12, e20, e21, e22]
  ring

/-- Abstract algebraic core of the volume identity: for normalized overlaps
`u`, `v`, `w` between the rows of a cell with row lengths `a`, `b`, `c` and
determinant `dM`, the sqrt argument of the reconstructed third row is
nonnegative and the reconstructed volume equals `|dM|`. -/
lemma vol_core (a b c u v w dM : ℝ) (ha : 0 < a) (hb : 0 < b) (hc : 0 < c)
    (hu2 : u ^ 2 < 1)
    (hdet : a ^ 2 * b ^ 2 * c ^ 2 * (1 - u ^ 2 - v ^ 2 - w ^ 2 + 2 * u * v * w)
      = dM ^ 2) :
    0 ≤ 1 - v ^ 2 - ((w - v * u) / Real.sqrt (1 - u ^ 2)) ^ 2 ∧
    |a * (b * Real.sqrt (1 - u ^ 2)) *
      (c * Real.sqrt (1 - v ^ 2 - ((w - v * u) / Real.sqrt (1 - u ^ 2)) ^ 2))|
      = |dM| := by
  have h1 : (0:ℝ) < 1 - u ^ 2 := by nlinarith
  have hS : 0 < Real.sqrt (1 - u ^ 2) := Real.sqrt_pos.mpr h1
  have hS2 : Real.sqrt (1 - u ^ 2) ^ 2 = 1 - u ^ 2 := Real.sq_sqrt h1.le
  set S := Real.sqrt (1 - u ^ 2) with hSdef
  set cy := (w - v * u) / S with hcydef
  have hScy : S * cy = w - v * u := by
    rw [hcydef]; field_simp
  have key : (a * b * c * S) ^ 2 * (1 - v ^ 2 - cy ^ 2) = dM ^ 2 := by
    have h2 : (a * b * c * S) ^ 2 * (1 - v ^ 2 - cy ^ 2)
        = a ^ 2 * b ^ 2 * c ^ 2 * (S ^ 2 * (1 - v ^ 2) - (S * cy) ^ 2) := by
      ring
    rw [h2, hScy, hS2]
    linear_combination hdet
  have hpos : (0:ℝ) < (a * b * c * S) ^ 2 :=
    pow_pos (mul_pos (mul_pos (mul_pos ha hb) hc) hS) 2
  have hE : 0 ≤ 1 - v ^ 2 - cy ^ 2 := by nlinarith [sq_nonneg dM]
  refine ⟨hE, ?_⟩
  have hsqE := Real.sqrt_nonneg (1 - v ^ 2 - cy ^ 2)
  have hx : 0 ≤ a * (b * S) * (c * Real.sqrt (1 - v ^ 2 - cy ^ 2)) :=
    mul_nonneg (mul_nonneg ha.le (mul_nonneg hb.le hS.le))
      (mul_nonneg hc.le hsqE)
  rw [abs_of_nonneg hx]
  have hsq : (a * (b * S) * (c * Real.sqrt (1 - v ^ 2 - cy ^ 2))) ^ 2 = dM ^ 2 := by
    have h4 : Real.sqrt (1 - v ^ 2 - cy ^ 2) ^ 2 = 1 - v ^ 2 - cy ^ 2 :=
      Real.sq_sqrt hE
    calc (a * (b * S) * (c * Real.sqrt (1 - v ^ 2 - cy ^ 2))) ^ 2
        = (a * b * c * S) ^ 2 * Real.sqrt (1 - v ^ 2 - cy ^ 2) ^ 2 := by ring
      _ = (a * b * c * S) ^ 2 * (1 - v ^ 2 - cy ^ 2) := by rw [h4]
      _ = dM ^ 2 := key
  calc a * (b * S) * (c * Real.sqrt (1 - v ^ 2 - cy ^ 2))
      = Real.sqrt ((a * (b * S) * (c * Real.sqrt (1 - v ^ 2 - cy ^ 2))) ^ 2) :=
        (Real.sqrt_sq hx).symm
    _ = Real.sqrt (dM ^ 2) := by rw [hsq]
    _ = |dM| := Real.sqrt_sq_eq_abs _

lemma neg_one_le_of_sq_le {x : ℝ} (h : x ^ 2 ≤ 1) : -1 ≤ x := by
  nlinarith [sq_nonneg (x + 1)]

lemma le_one_of_sq_le {x : ℝ} (h : x ^ 2 ≤ 1) : x ≤ 1 := by
  nlinarith [sq_nonneg (x - 1)]

lemma neg_one_lt_of_sq_lt {x : ℝ} (h : x ^ 2 < 1) : -1 < x := by
  nlinarith [sq_nonneg (x + 1)]

lemma lt_one_of_sq_lt {x : ℝ} (h : x ^ 2 < 1) : x < 1 := by
  nlinarith [sq_nonneg (x - 1)]

/-- Geometric facts for a non-degenerate cell `M`: the cosines/sines of the
derived constants are the normalized row overlaps, the sqrt argument of the
reconstructed cell is nonnegative, and the reconstructed volume equals the
volume of `M`. -/
lemma cell2cc_facts (M : Matrix (Fin 3) (Fin 3) ℝ)
    (hA : 0 < dot3 (M 0) (M 0)) (hB : 0 < dot3 (M 1) (M 1))
    (hC : 0 < dot3 (M 2) (M 2))
    (hAB : dot3 (M 0) (M 1) ^ 2 < dot3 (M 0) (M 0) * dot3 (M 1) (M 1)) :
    0 ≤ 1 - cosd (cell2cc M 4) ^ 2 -
      ((cosd (cell2cc M 3) - cosd (cell2cc M 4) * cosd (cell2cc M 5)) /
        sind (cell2cc M 5)) ^ 2 ∧
    |(cc2cell (cell2cc M)).det| = |M.det| ∧
    0 < cell2cc M 0 ∧ 0 < cell2cc M 1 ∧ 0 < cell2cc M 2 ∧
    0 < cell2cc M 5 ∧ cell2cc M 5 < 180 := by
  have ha : 0 < norm3 (M 0) := norm3_pos hA
  have hb : 0 < norm3 (M 1) := norm3_pos hB
  have hc : 0 < norm3 (M 2) := norm3_pos hC
  have ha2 : norm3 (M 0) ^ 2 = dot3 (M 0) (M 0) := sq_norm3 hA.le
  have hb2 : norm3 (M 1) ^ 2 = dot3 (M 1) (M 1) := sq_norm3 hB.le
  have hc2 : norm3 (M 2) ^ 2 = dot3 (M 2) (M 2) := sq_norm3 hC.le
  have hab2 : (norm3 (M 0) * norm3 (M 1)) ^ 2 = dot3 (M 0) (M 0) * dot3 (M 1) (M 1) := by
    rw [mul_pow, ha2, hb2]
  have hac2 : (norm3 (M 0) * norm3 (M 2)) ^ 2 = dot3 (M 0) (M 0) * dot3 (M 2) (M 2) := by
    rw [mul_pow, ha2, hc2]
  have hbc2 : (norm3 (M 1) * norm3 (M 2)) ^ 2 = dot3 (M 1) (M 1) * dot3 (M 2) (M 2) := by
    rw [mul_pow, hb2, hc2]
  have hu2 : (dot3 (M 0) (M 1) / (norm3 (M 0) * norm3 (M 1))) ^ 2 < 1 := by
    rw [div_pow, div_lt_one (by rw [hab2]; exact mul_pos hA hB), hab2]
    exact hAB
  have hv2 : (dot3 (M 0) (M 2) / (norm3 (M 0) * norm3 (M 2))) ^ 2 ≤ 1 := by
    rw [div_pow, div_le_one (by rw [hac2]; exact mul_pos hA hC), hac2]
    exact dot3_sq_le_dot3_mul_dot3 _ _
  have hw2 : (dot3 (M 1) (M 2) / (norm3 (M 1) * norm3 (M 2))) ^ 2 ≤ 1 := by
    rw [div_pow, div_le_one (by rw [hbc2]; exact mul_pos hB hC), hbc2]
    exact dot3_sq_le_dot3_mul_dot3 _ _
  have hca : cosd (cell2cc M 3) = dot3 (M 1) (M 2) / (norm3 (M 1) * norm3 (M 2)) := by
    rw [cell2cc_3]
    exact cosd_acosd (neg_one_le_of_sq_le hw2) (le_one_of_sq_le hw2)
  have hcb : cosd (cell2cc M 4) = dot3 (M 0) (M 2) / (norm3 (M 0) * norm3 (M 2)) := by
    rw [cell2cc_4]
    exact cosd_acosd (neg_one_le_of_sq_le hv2) (le_one_of_sq_le hv2)
  have hcg : cosd (cell2cc M 5) = dot3 (M 0) (M 1) / (norm3 (M 0) * norm3 (M 1)) := by
    rw [cell2cc_5]
    exact cosd_acosd (neg_one_le_of_sq_le hu2.le) (le_one_of_sq_le hu2.le)
  have hsg : sind (cell2cc M 5) =
      Real.sqrt (1 - (dot3 (M 0) (M 1) / (norm3 (M 0) * norm3 (M 1))) ^ 2) := by
    rw [cell2cc_5]
    exact sind_acosd _
  have key1 : (dot3 (M 0) (M 1) / (norm3 (M 0) * norm3 (M 1))) ^ 2 *
      (dot3 (M 0) (M 0) * dot3 (M 1) (M 1)) = dot3 (M 0) (M 1) ^ 2 := by
    rw [div_pow, hab2, div_mul_cancel₀]
    exact (mul_pos hA hB).ne'
  have key2 : (dot3 (M 0) (M 2) / (norm3 (M 0) * norm3 (M 2))) ^ 2 *
      (dot3 (M 0) (M 0) * dot3 (M 2) (M 2)) = dot3 (M 0) (M 2) ^ 2 := by
    rw [div_pow, hac2, div_mul_cancel₀]
    exact (mul_pos hA hC).ne'
  have key3 : (dot3 (M 1) (M 2) / (norm3 (M 1) * norm3 (M 2))) ^ 2 *
      (dot3 (M 1) (M 1) * dot3 (M 2) (M 2)) = dot3 (M 1) (M 2) ^ 2 := by
    rw [div_pow, hbc2, div_mul_cancel₀]
    exact (mul_pos hB hC).ne'
  have key4 : (dot3 (M 0) (M 1) / (norm3 (M 0) * norm3 (M 1))) *
      (dot3 (M 0) (M 2) / (norm3 (M 0) * norm3 (M 2))) *
      (dot3 (M 1) (M 2) / (norm3 (M 1) * norm3 (M 2))) *
      (dot3 (M 0) (M 0) * dot3 (M 1) (M 1) * dot3 (M 2) (M 2)) =
      dot3 (M 0) (M 1) * dot3 (M 0) (M 2) * dot3 (M 1) (M 2) := by
    rw [← ha2, ← hb2, ← hc2]
    have hrw : (dot3 (M 0) (M 1) / (norm3 (M 0) * norm3 (M 1))) *
        (dot3 (M 0) (M 2) / (norm3 (M 0) * norm3 (M 2))) *
        (dot3 (M 1) (M 2) / (norm3 (M 1) * norm3 (M 2))) =
        dot3 (M 0) (M 1) * dot3 (M 0) (M 2) * dot3 (M 1) (M 2) /
          (norm3 (M 0) ^ 2 * norm3 (M 1) ^ 2 * norm3 (M 2) ^ 2) := by
      ring
    rw [hrw, div_mul_cancel₀]
    exact (mul_pos (mul_pos (pow_pos ha 2) (pow_pos hb 2)) (pow_pos hc 2)).ne'
  have hdet : norm3 (M 0) ^ 2 * norm3 (M 1) ^ 2 * norm3 (M 2) ^ 2 *
      (1 - (dot3 (M 0) (M 1) / (norm3 (M 0) * norm3 (M 1))) ^ 2
         - (dot3 (M 0) (M 2) / (norm3 (M 0) * norm3 (M 2))) ^ 2
         - (dot3 (M 1) (M 2) / (norm3 (M 1) * norm3 (M 2))) ^ 2
         + 2 * (dot3 (M 0) (M 1) / (norm3 (M 0) * norm3 (M 1)))
             * (dot3 (M 0) (M 2) / (norm3 (M 0) * norm3 (M 2)))
             * (dot3 (M 1) (M 2) / (norm3 (M 1) * norm3 (M 2)))) = M.det ^ 2 := by
    rw [ha2, hb2, hc2, det_sq_eq M]
    linear_combination (-(dot3 (M 2) (M 2))) * key1 + (-(dot3 (M 1) (M 1))) * key2 +
      (-(dot3 (M 0) (M 0))) * key3 + 2 * key4
  obtain ⟨hE, hvol⟩ := vol_core (norm3 (M 0)) (norm3 (M 1)) (norm3 (M 2))
    (dot3 (M 0) (M 1) / (norm3 (M 0) * norm3 (M 1)))
    (dot3 (M 0) (M 2) / (norm3 (M 0) * norm3 (M 2)))
    (dot3 (M 1) (M 2) / (norm3 (M 1) * norm3 (M 2)))
    M.det ha hb hc hu2 hdet
  refine ⟨?_, ?_, ?_, ?_, ?_, ?_, ?_⟩
  · rw [hca, hcb, hcg, hsg]
    exact hE
  · rw [det_cc2cell, cell2cc_0, cell2cc_1, cell2cc_2, hca, hcb, hcg, hsg]
    exact hvol
  · rw [cell2cc_0]; exact ha
  · rw [cell2cc_1]; exact hb
  · rw [cell2cc_2]; exact hc
  · rw [cell2cc_5]
    exact acosd_pos (lt_one_of_sq_lt hu2)
  · rw [cell2cc_5]
    exact acosd_lt_180 (neg_one_lt_of_sq_lt hu2)

/-! ## StructureEntity / TrajectoryEntity

Modelled from the spec: the entities of the missing `crys.py`.  Fields are
`Option`-valued raw inputs; an absent field is `none`.  Per-step arrays are
total functions on the step index (only indices below `nstep` are
meaningful).  The resolver getters below follow the registry of spec section
4.2. -/

/-- Modelled from the spec: a single atomic configuration
(`crys.Structure`). -/
structure Struct where
  symbols : List String
  coords : Option (ℕ → Fin 3 → ℝ)
  coords_frac : Option (ℕ → Fin 3 → ℝ)
  cell : Option (Matrix (Fin 3) (Fin 3) ℝ)
  cryst_const : Option (Fin 6 → ℝ)
  forces : Option (ℕ → Fin 3 → ℝ)
  stress : Option (Matrix (Fin 3) (Fin 3) ℝ)
  etot : Option ℝ

/-- `natoms` equals the length of the symbols list. -/
def Struct.natoms (st : Struct) : ℕ := st.symbols.length

/-- Modelled from the spec: a time-ordered sequence of configurations
(`crys.Trajectory`). -/
structure Traj where
  nstep : ℕ
  symbols : List String
  coords : Option (ℕ → ℕ → Fin 3 → ℝ)
  coords_frac : Option (ℕ → ℕ → Fin 3 → ℝ)
  cell : Option (ℕ → Matrix (Fin 3) (Fin 3) ℝ)
  cryst_const : Option (ℕ → Fin 6 → ℝ)
  forces : Option (ℕ → ℕ → Fin 3 → ℝ)
  stress : Option (ℕ → Matrix (Fin 3) (Fin 3) ℝ)
  etot : Option (ℕ → ℝ)
  timestep : Option ℝ

/-- Resolver getter for the per-step cell: supplied `cell`, else derived
from `cryst_const` via `cc2cell`. -/
noncomputable def Traj.cellArr (t : Traj) : Option (ℕ → Matrix (Fin 3) (Fin 3) ℝ) :=
  match t.cell with
  | some c => some c
  | none => t.cryst_const.map (fun cc i => cc2cell (cc i))

/-- Resolver getter for the per-step crystallographic constants: supplied
`cryst_const`, else derived from `cell` via `cell2cc`. -/
noncomputable def Traj.ccArr (t : Traj) : Option (ℕ → Fin 6 → ℝ) :=
  match t.cryst_const with
  | some cc => some cc
  | none => t.cell.map (fun c i => cell2cc (c i))

/-- Per-step pressure derived from the stress tensor.  The sign is pinned
by the assertion `aaae(np.trace(stress,axis1=1,axis2=2)/3.0, traj.pressure)`
in `src/test/test_trajectory.py`: the pressure is `+trace(stress)/3`. -/
noncomputable def Traj.pressureArr (t : Traj) : Option (ℕ → ℝ) :=
  t.stress.map (fun s i => Matrix.trace (s i) / 3)

/-- Python slice length for nonnegative `start`/`stop` and positive
`step`, as produced by `slice(start, stop, step).indices(n)`. -/
def sliceLen (start stop step n : ℕ) : ℕ :=
  let stop2 := min stop n
  let start2 := min start n
  if start2 < stop2 then (stop2 - start2 + step - 1) / step else 0

/-- Slicing a trajectory along the step axis with `traj[start:stop:step]`
(the same object is produced whether the slice is written literally, via
`slice(...)` or via `np.s_[...]`); `timestep` is preserved. -/
def Traj.sliceTraj (t : Traj) (start stop step : ℕ) : Traj where
  nstep := sliceLen start stop step t.nstep
  symbols := t.symbols
  coords := t.coords.map (fun f i => f (start + step * i))
  coords_frac := t.coords_frac.map (fun f i => f (start + step * i))
  cell := t.cell.map (fun f i => f (start + step * i))
  cryst_const := t.cryst_const.map (fun f i => f (start + step * i))
  forces := t.forces.map (fun f i => f (start + step * i))
  stress := t.stress.map (fun f i => f (start + step * i))
  etot := t.etot.map (fun f i => f (start + step * i))
  timestep := t.timestep

/-- Integer indexing `traj[i]`: a single `Struct` holding step `i` of every
per-step field. -/
def Traj.getStructure (t : Traj) (i : ℕ) : Struct where
  symbols := t.symbols
  coords := t.coords.map (fun f => f i)
  coords_frac := t.coords_frac.map (fun f => f i)
  cell := t.cell.map (fun f => f i)
  cryst_const := t.cryst_const.map (fun f => f i)
  forces := t.forces.map (fun f => f i)
  stress := t.stress.map (fun f => f i)
  etot := t.etot.map (fun f => f i)

/-- Iterating a trajectory yields one `Struct` per step. -/
def Traj.iterate (t : Traj) : List Struct :=
  (List.range t.nstep).map t.getStructure

/-- The resolver can produce `cell` (supplied, or derived from
`cryst_const`). -/
def Struct.has_cell (st : Struct) : Bool :=
  st.cell.isSome || st.cryst_const.isSome

/-- The resolver can produce `cryst_const` (supplied, or derived from
`cell`). -/
def Struct.has_cc (st : Struct) : Bool :=
  st.cryst_const.isSome || st.cell.isSome

/-- The resolver can produce `coords` (supplied, or derived from
`coords_frac` and a cell). -/
def Struct.has_coords (st : Struct) : Bool :=
  st.coords.isSome || (st.coords_frac.isSome && st.has_cell)

/-- The resolver can produce `coords_frac` (supplied, or derived from
`coords` and a cell). -/
def Struct.has_coords_frac (st : Struct) : Bool :=
  st.coords_frac.isSome || (st.coords.isSome && st.has_cell)

/-- Every declared per-structure attribute of the embedding is resolvable
(supplied or derivable through the registry). -/
def Struct.resolvable_all (st : Struct) : Bool :=
  st.has_coords && st.has_coords_frac && st.has_cell && st.has_cc &&
    st.forces.isSome && st.stress.isSome && st.etot.isSome

/-- Lookup into a list of stacked per-step blocks: block lengths with their
data functions; `d` is returned past the end. -/
def stackLookup {β : Type} (d : β) : List (ℕ × (ℕ → β)) → ℕ → β
  | [], _ => d
  | (n, f) :: rest, i => if i < n then f i else stackLookup d rest (i - n)

/-- Stack one per-step field of several trajectories along the time axis;
defined only when every source supplies the field. -/
def stackField {β : Type} (d : β) (l : List (ℕ × Option (ℕ → β))) :
    Option (ℕ → β) :=
  if l.all (fun q => q.2.isSome) then
    some (stackLookup d (l.map (fun q => (q.1, q.2.getD (fun _ => d)))))
  else none

/-- Modelled from the spec: `crys.concatenate`.  The step counts add up,
every per-step field is the sources stacked along the time axis, and
`timestep` is `None` (source timesteps cannot be assumed equal). -/
def concatenate (ts : List Traj) : Traj where
  nstep := (ts.map Traj.nstep).sum
  symbols := ((ts.head?).map Traj.symbols).getD []
  coords := stackField (fun _ _ => 0) (ts.map fun t => (t.nstep, t.coords))
  coords_frac := stackField (fun _ _ => 0) (ts.map fun t => (t.nstep, t.coords_frac))
  cell := stackField 0 (ts.map fun t => (t.nstep, t.cell))
  cryst_const := stackField (fun _ => 0) (ts.map fun t => (t.nstep, t.cryst_const))
  forces := stackField (fun _ _ => 0) (ts.map fun t => (t.nstep, t.forces))
  stress := stackField 0 (ts.map fun t => (t.nstep, t.stress))
  etot := stackField 0 (ts.map fun t => (t.nstep, t.etot))
  timestep := none

/-- A `Struct` enters concatenation as a trajectory with `nstep = 1`. -/
def Struct.toTraj (st : Struct) : Traj where
  nstep := 1
  symbols := st.symbols
  coords := st.coords.map (fun f _ => f)
  coords_frac := st.coords_frac.map (fun f _ => f)
  cell := st.cell.map (fun c _ => c)
  cryst_const := st.cryst_const.map (fun c _ => c)
  forces := st.forces.map (fun f _ => f)
  stress := st.stress.map (fun s _ => s)
  etot := st.etot.map (fun e _ => e)
  timestep := none

/-- Modelled from the spec: `num.extend_array`, replicating a snapshot
value along a new time axis. -/
def extendArr {β : Type} (x : β) : ℕ → β := fun _ => x

/-- Trajectory construction from per-step fractional coordinates plus one
time-independent 3x3 cell: the cell is broadcast along the time axis. -/
def mkTrajCell2d (nstep : ℕ) (symbols : List String)
    (cf : ℕ → ℕ → Fin 3 → ℝ) (cell2d : Matrix (Fin 3) (Fin 3) ℝ) : Traj where
  nstep := nstep
  symbols := symbols
  coords := none
  coords_frac := some cf
  cell := some (extendArr cell2d)
  cryst_const := none
  forces := none
  stress := none
  etot := none
  timestep := none

/-- Trajectory construction from per-step fractional coordinates plus one
time-independent 6-vector of crystallographic constants. -/
def mkTrajCC2d (nstep : ℕ) (symbols : List String)
    (cf : ℕ → ℕ → Fin 3 → ℝ) (cc2d : Fin 6 → ℝ) : Traj where
  nstep := nstep
  symbols := symbols
  coords := none
  coords_frac := some cf
  cell := none
  cryst_const := some (extendArr cc2d)
  forces := none
  stress := none
  etot := none
  timestep := none

/-- Trajectory construction from per-step fractional coordinates plus
per-step crystallographic constants. -/
def mkTrajCC (nstep : ℕ) (symbols : List String)
    (cf : ℕ → ℕ → Fin 3 → ℝ) (cc : ℕ → Fin 6 → ℝ) : Traj where
  nstep := nstep
  symbols := symbols
  coords := none
  coords_frac := some cf
  cell := none
  cryst_const := some cc
  forces := none
  stress := none
  etot := none
  timestep := none

/-- Concrete one-step trajectory whose stress is the identity tensor at
every step; used to settle the sign of the derived pressure. -/
noncomputable def trajC2 : Traj where
  nstep := 1
  symbols := ["H"]
  coords := none
  coords_frac := none
  cell := none
  cryst_const := none
  forces := none
  stress := some (fun _ => 1)
  etot := none
  timestep := none

/-- C2 (counterexample): the derived pressure is not the negative of
`trace(stress)/3`.  With the identity stress tensor the pressure is `1`
while the claimed value is `-1`. -/
theorem pressure_neg_counterexample :
    ∃ p, trajC2.pressureArr = some p ∧
      p 0 ≠ -(Matrix.trace ((1 : Matrix (Fin 3) (Fin 3) ℝ))) / 3 := by
  refine ⟨_, rfl, ?_⟩
  have htr : Matrix.trace ((1 : Matrix (Fin 3) (Fin 3) ℝ)) = 3 := by
    rw [Matrix.trace_one]
    norm_num
  show Matrix.trace ((1 : Matrix (Fin 3) (Fin 3) ℝ)) / 3 ≠ _
  rw [htr]
  norm_num

/-- C2 (amended): for a trajectory with a per-step stress array, the
derived per-step pressure equals `trace(stress)/3` (positive sign, as
asserted by the repository test). -/
theorem pressure_eq_trace_div_three (t : Traj) (s : ℕ → Matrix (Fin 3) (Fin 3) ℝ)
    (hs : t.stress = some s) :
    ∃ p, t.pressureArr = some p ∧ ∀ i, p i = Matrix.trace (s i) / 3 := by
  refine ⟨_, ?_, fun i => rfl⟩
  rw [Traj.pressureArr, hs]
  rfl

/-- Witness for C2 (amended) at a concrete trajectory. -/
theorem pressure_eq_trace_div_three_witness :
    trajC2.stress = some (fun _ => 1) ∧
    ∃ p, trajC2.pressureArr = some p ∧
      ∀ i, p i = Matrix.trace ((fun _ => (1 : Matrix (Fin 3) (Fin 3) ℝ)) i) / 3 :=
  ⟨rfl, pressure_eq_trace_div_three trajC2 _ rfl⟩

/-- C10: a trajectory built from per-step `coords_frac` and a single
time-independent `cell` (or a single `cryst_const`) broadcasts the snapshot
along the time axis: every time slice of the derived cell equals the
supplied cell, every slice of the derived constants equals `cell2cc` of it,
and in the `cryst_const` form every slice equals the supplied constants
with the derived cell reconstructed per step. -/
theorem traj_broadcast_snapshot (nstep : ℕ) (symbols : List String)
    (cf : ℕ → ℕ → Fin 3 → ℝ) (cell2d : Matrix (Fin 3) (Fin 3) ℝ)
    (cc2d : Fin 6 → ℝ) :
    (∃ cellf, (mkTrajCell2d nstep symbols cf cell2d).cellArr = some cellf ∧
      ∀ i, cellf i = cell2d) ∧
    (∃ ccf, (mkTrajCell2d nstep symbols cf cell2d).ccArr = some ccf ∧
      ∀ i, ccf i = cell2cc cell2d) ∧
    (∃ ccf2, (mkTrajCC2d nstep symbols cf cc2d).ccArr = some ccf2 ∧
      ∀ i, ccf2 i = cc2d) ∧
    (∃ cellf2, (mkTrajCC2d nstep symbols cf cc2d).cellArr = some cellf2 ∧
      ∀ i, cellf2 i = cc2cell cc2d) :=
  ⟨⟨_, rfl, fun _ => rfl⟩, ⟨_, rfl, fun _ => rfl⟩,
   ⟨_, rfl, fun _ => rfl⟩, ⟨_, rfl, fun _ => rfl⟩⟩

/-- C3: for a 100-step trajectory with all per-step inputs supplied,
`traj[10:80:2]` (the same slice object however it is written) is a
trajectory of `nstep = 35`; a single integer index yields a `Struct`; and
iterating yields exactly `nstep` structures, each with every declared
per-structure attribute resolvable. -/
theorem traj_slice_iterate (t : Traj) (h100 : t.nstep = 100)
    (hco : t.coords.isSome) (hce : t.cell.isSome) (hf : t.forces.isSome)
    (hst : t.stress.isSome) (he : t.etot.isSome) :
    (t.sliceTraj 10 80 2).nstep = 35 ∧
    t.iterate.length = t.nstep ∧
    ∀ st ∈ t.iterate, st.resolvable_all = true := by
  refine ⟨?_, by simp [Traj.iterate], fun st hmem => ?_⟩
  · show sliceLen 10 80 2 t.nstep = 35
    rw [h100]
    decide
  · simp only [Traj.iterate, List.mem_map] at hmem
    obtain ⟨i, _, rfl⟩ := hmem
    obtain ⟨cv, hcv⟩ := Option.isSome_iff_exists.mp hco
    obtain ⟨ev, hev⟩ := Option.isSome_iff_exists.mp hce
    obtain ⟨fv, hfv⟩ := Option.isSome_iff_exists.mp hf
    obtain ⟨sv, hsv⟩ := Option.isSome_iff_exists.mp hst
    obtain ⟨tv, htv⟩ := Option.isSome_iff_exists.mp he
    simp [Struct.resolvable_all, Struct.has_coords, Struct.has_coords_frac,
      Struct.has_cell, Struct.has_cc, Traj.getStructure, hcv, hev, hfv,
      hsv, htv]

/-- Concrete 100-step trajectory with all per-step inputs supplied. -/
def trajC3 : Traj where
  nstep := 100
  symbols := ["H"]
  coords := some (fun _ _ _ => 0)
  coords_frac := none
  cell := some (fun _ => 0)
  cryst_const := none
  forces := some (fun _ _ _ => 0)
  stress := some (fun _ => 0)
  etot := some (fun _ => 0)
  timestep := some 1

/-- Witness for C3 at a concrete trajectory. -/
theorem traj_slice_iterate_witness :
    (trajC3.nstep = 100 ∧ trajC3.coords.isSome ∧ trajC3.cell.isSome ∧
      trajC3.forces.isSome ∧ trajC3.stress.isSome ∧ trajC3.etot.isSome) ∧
    (trajC3.sliceTraj 10 80 2).nstep = 35 ∧
    trajC3.iterate.length = trajC3.nstep ∧
    ∀ st ∈ trajC3.iterate, st.resolvable_all = true :=
  ⟨⟨rfl, rfl, rfl, rfl, rfl, rfl⟩,
   traj_slice_iterate trajC3 rfl rfl rfl rfl rfl rfl⟩

lemma stackField_head {β : Type} (d : β) (l : List (ℕ × Option (ℕ → β)))
    (n : ℕ) (f : ℕ → β) (hhead : l.head? = some (n, some f))
    (hall : ∀ q ∈ l, Option.isSome q.2) :
    ∃ g, stackField d l = some g ∧ ∀ i < n, g i = f i := by
  cases l with
  | nil => simp at hhead
  | cons q rest =>
    have hq : q = (n, some f) := by
      simpa using hhead
    subst hq
    have hcond : ((n, some f) :: rest).all (fun q2 => q2.2.isSome) = true := by
      rw [List.all_eq_true]
      intro x hx
      exact hall x hx
    refine ⟨_, by rw [stackField, if_pos hcond], fun i hi => ?_⟩
    simp only [List.map_cons]
    show stackLookup d ((n, (some f).getD (fun _ => d)) :: _) i = f i
    rw [stackLookup, if_pos hi]
    rfl

/-- C4: concatenating trajectories (structures enter as one-step
trajectories) yields a trajectory whose `timestep` is `None`, whose
`nstep` is the sum of the source step counts (three structures give 3,
three 100-step trajectories give 300), whose symbols come from the first
source, and whose first block of steps carries exactly the first source's
per-step fields (for every field that all sources supply). -/
theorem concatenate_spec (ts : List Traj) (t1 : Traj) (hh : ts.head? = some t1) :
    (concatenate ts).timestep = none ∧
    (concatenate ts).nstep = (ts.map Traj.nstep).sum ∧
    (concatenate ts).symbols = t1.symbols ∧
    (∀ st : Struct, (concatenate (List.replicate 3 st.toTraj)).nstep = 3) ∧
    (concatenate (List.replicate 3 t1)).nstep = 3 * t1.nstep ∧
    (∀ f1, t1.coords = some f1 → (∀ t ∈ ts, t.coords.isSome) →
      ∃ g, (concatenate ts).coords = some g ∧ ∀ i < t1.nstep, g i = f1 i) ∧
    (∀ f1, t1.coords_frac = some f1 → (∀ t ∈ ts, t.coords_frac.isSome) →
      ∃ g, (concatenate ts).coords_frac = some g ∧ ∀ i < t1.nstep, g i = f1 i) ∧
    (∀ f1, t1.cell = some f1 → (∀ t ∈ ts, t.cell.isSome) →
      ∃ g, (concatenate ts).cell = some g ∧ ∀ i < t1.nstep, g i = f1 i) ∧
    (∀ f1, t1.cryst_const = some f1 → (∀ t ∈ ts, t.cryst_const.isSome) →
      ∃ g, (concatenate ts).cryst_const = some g ∧ ∀ i < t1.nstep, g i = f1 i) ∧
    (∀ f1, t1.forces = some f1 → (∀ t ∈ ts, t.forces.isSome) →
      ∃ g, (concatenate ts).forces = some g ∧ ∀ i < t1.nstep, g i = f1 i) ∧
    (∀ f1, t1.stress = some f1 → (∀ t ∈ ts, t.stress.isSome) →
      ∃ g, (concatenate ts).stress = some g ∧ ∀ i < t1.nstep, g i = f1 i) ∧
    (∀ f1, t1.etot = some f1 → (∀ t ∈ ts, t.etot.isSome) →
      ∃ g, (concatenate ts).etot = some g ∧ ∀ i < t1.nstep, g i = f1 i) := by
  refine ⟨rfl, rfl, ?_, ?_, ?_, ?_, ?_, ?_, ?_, ?_, ?_, ?_⟩
  · show ((ts.head?).map Traj.symbols).getD [] = t1.symbols
    rw [hh]
    rfl
  · intro st
    show ((List.replicate 3 st.toTraj).map Traj.nstep).sum = 3
    rw [List.map_replicate]
    rfl
  · show ((List.replicate 3 t1).map Traj.nstep).sum = 3 * t1.nstep
    rw [List.map_replicate]
    show t1.nstep + (t1.nstep + (t1.nstep + 0)) = 3 * t1.nstep
    ring
  · intro f1 hf1 hall
    refine stackField_head _ _ _ _ ?_ ?_
    · rw [List.head?_map, hh]
      simp [hf1]
    · intro q hq
      simp only [List.mem_map] at hq
      obtain ⟨t, ht, rfl⟩ := hq
      exact hall t ht
  · intro f1 hf1 hall
    refine stackField_head _ _ _ _ ?_ ?_
    · rw [List.head?_map, hh]
      simp [hf1]
    · intro q hq
      simp only [List.mem_map] at hq
      obtain ⟨t, ht, rfl⟩ := hq
      exact hall t ht
  · intro f1 hf1 hall
    refine stackField_head _ _ _ _ ?_ ?_
    · rw [List.head?_map, hh]
      simp [hf1]
    · intro q hq
      simp only [List.mem_map] at hq
      obtain ⟨t, ht, rfl⟩ := hq
      exact hall t ht
  · intro f1 hf1 hall
    refine stackField_head _ _ _ _ ?_ ?_
    · rw [List.head?_map, hh]
      simp [hf1]
    · intro q hq
      simp only [List.mem_map] at hq
      obtain ⟨t, ht, rfl⟩ := hq
      exact hall t ht
  · intro f1 hf1 hall
    refine stackField_head _ _ _ _ ?_ ?_
    · rw [List.head?_map, hh]
      simp [hf1]
    · intro q hq
      simp only [List.mem_map] at hq
      obtain ⟨t, ht, rfl⟩ := hq
      exact hall t ht
  · intro f1 hf1 hall
    refine stackField_head _ _ _ _ ?_ ?_
    · rw [List.head?_map, hh]
      simp [hf1]
    · intro q hq
      simp only [List.mem_map] at hq
      obtain ⟨t, ht, rfl⟩ := hq
      exact hall t ht
  · intro f1 hf1 hall
    refine stackField_head _ _ _ _ ?_ ?_
    · rw [List.head?_map, hh]
      simp [hf1]
    · intro q hq
      simp only [List.mem_map] at hq
      obtain ⟨t, ht, rfl⟩ := hq
      exact hall t ht

/-- Witness for C4: concatenating three copies of a concrete trajectory. -/
theorem concatenate_spec_witness :
    ([trajC3, trajC3, trajC3].head? = some trajC3) ∧
    (concatenate [trajC3, trajC3, trajC3]).timestep = none ∧
    (concatenate [trajC3, trajC3, trajC3]).nstep =
      ([trajC3, trajC3, trajC3].map Traj.nstep).sum ∧
    ∃ g, (concatenate [trajC3, trajC3, trajC3]).coords = some g ∧
      ∀ i < trajC3.nstep, g i = (fun _ _ _ => (0 : ℝ)) i := by
  have h := concatenate_spec [trajC3, trajC3, trajC3] trajC3 rfl
  refine ⟨rfl, h.1, h.2.1, ?_⟩
  exact h.2.2.2.2.2.1 (fun _ _ _ => 0) rfl
    (by intro t ht; simp at ht; rw [ht]; rfl)

/-- C7: a trajectory built from `coords_frac` plus `cryst_const` (the
constants measured on an original per-step cell) derives a cell whose
orientation is fixed by convention, but whose per-step volume equals the
volume of the original cell and whose `cell2cc` returns the original
constants. -/
theorem traj_cc_consistency (nstep : ℕ) (symbols : List String)
    (cf : ℕ → ℕ → Fin 3 → ℝ) (cell0 : ℕ → Matrix (Fin 3) (Fin 3) ℝ) (i : ℕ)
    (hA : 0 < dot3 (cell0 i 0) (cell0 i 0))
    (hB : 0 < dot3 (cell0 i 1) (cell0 i 1))
    (hC : 0 < dot3 (cell0 i 2) (cell0 i 2))
    (hAB : dot3 (cell0 i 0) (cell0 i 1) ^ 2 <
      dot3 (cell0 i 0) (cell0 i 0) * dot3 (cell0 i 1) (cell0 i 1)) :
    ∃ cellf,
      (mkTrajCC nstep symbols cf (fun j => cell2cc (cell0 j))).cellArr = some cellf ∧
      volume_cell (cellf i) = volume_cell (cell0 i) ∧
      cell2cc (cellf i) = cell2cc (cell0 i) := by
  obtain ⟨harg, hvol, ha, hb, hc, hg1, hg2⟩ := cell2cc_facts (cell0 i) hA hB hC hAB
  refine ⟨_, rfl, ?_, ?_⟩
  · show |(cc2cell (cell2cc (cell0 i))).det| = |(cell0 i).det|
    exact hvol
  · show cell2cc (cc2cell (cell2cc (cell0 i))) = cell2cc (cell0 i)
    refine cell2cc_cc2cell _ ha hb hc ?_ ?_ ?_ ?_ hg1 hg2 harg
    · rw [cell2cc_3]; exact acosd_nonneg _
    · rw [cell2cc_3]; exact acosd_le_180 _
    · rw [cell2cc_4]; exact acosd_nonneg _
    · rw [cell2cc_4]; exact acosd_le_180 _

/-- Witness for C7 at the identity cell. -/
theorem traj_cc_consistency_witness :
    (0 < dot3 ((1 : Matrix (Fin 3) (Fin 3) ℝ) 0) ((1 : Matrix (Fin 3) (Fin 3) ℝ) 0) ∧
     0 < dot3 ((1 : Matrix (Fin 3) (Fin 3) ℝ) 1) ((1 : Matrix (Fin 3) (Fin 3) ℝ) 1) ∧
     0 < dot3 ((1 : Matrix (Fin 3) (Fin 3) ℝ) 2) ((1 : Matrix (Fin 3) (Fin 3) ℝ) 2) ∧
     dot3 ((1 : Matrix (Fin 3) (Fin 3) ℝ) 0) ((1 : Matrix (Fin 3) (Fin 3) ℝ) 1) ^ 2 <
       dot3 ((1 : Matrix (Fin 3) (Fin 3) ℝ) 0) ((1 : Matrix (Fin 3) (Fin 3) ℝ) 0) *
       dot3 ((1 : Matrix (Fin 3) (Fin 3) ℝ) 1) ((1 : Matrix (Fin 3) (Fin 3) ℝ) 1)) ∧
    ∃ cellf,
      (mkTrajCC 1 ["H"] (fun _ _ _ => 0)
        (fun j => cell2cc ((fun _ => (1 : Matrix (Fin 3) (Fin 3) ℝ)) j))).cellArr
        = some cellf ∧
      volume_cell (cellf 0) = volume_cell ((fun _ => (1 : Matrix (Fin 3) (Fin 3) ℝ)) 0) ∧
      cell2cc (cellf 0) = cell2cc ((fun _ => (1 : Matrix (Fin 3) (Fin 3) ℝ)) 0) := by
  have h1 : 0 < dot3 ((1 : Matrix (Fin 3) (Fin 3) ℝ) 0) ((1 : Matrix (Fin 3) (Fin 3) ℝ) 0) := by
    norm_num [dot3, Matrix.one_apply, Fin.ext_iff]
  have h2 : 0 < dot3 ((1 : Matrix (Fin 3) (Fin 3) ℝ) 1) ((1 : Matrix (Fin 3) (Fin 3) ℝ) 1) := by
    norm_num [dot3, Matrix.one_apply, Fin.ext_iff]
  have h3 : 0 < dot3 ((1 : Matrix (Fin 3) (Fin 3) ℝ) 2) ((1 : Matrix (Fin 3) (Fin 3) ℝ) 2) := by
    norm_num [dot3, Matrix.one_apply, Fin.ext_iff]
  have h4 : dot3 ((1 : Matrix (Fin 3) (Fin 3) ℝ) 0) ((1 : Matrix (Fin 3) (Fin 3) ℝ) 1) ^ 2 <
      dot3 ((1 : Matrix (Fin 3) (Fin 3) ℝ) 0) ((1 : Matrix (Fin 3) (Fin 3) ℝ) 0) *
      dot3 ((1 : Matrix (Fin 3) (Fin 3) ℝ) 1) ((1 : Matrix (Fin 3) (Fin 3) ℝ) 1) := by
    norm_num [dot3, Matrix.one_apply, Fin.ext_iff]
  exact ⟨⟨h1, h2, h3, h4⟩,
    traj_cc_consistency 1 ["H"] (fun _ _ _ => 0) (fun _ => 1) 0 h1 h2 h3 h4⟩

/-! ## Random structure generation

Modelled from the spec: `crys.RandomStructure.get_random_struct`.  External
randomness is passed in as oracles: per cell attempt the sampled cell and,
when the nested atom placement succeeded within `atom_maxtry`, the placed
fractional coordinates; and the unconstrained placement used by the
`fail=False` fallback. -/

/-- The structure assembled from a sampled cell and placed fractional
coordinates (all atoms placed, one row per symbol). -/
def mkRandStruct (symbols : List String) (cell : Matrix (Fin 3) (Fin 3) ℝ)
    (frac : ℕ → Fin 3 → ℝ) : Struct where
  symbols := symbols
  coords := none
  coords_frac := some frac
  cell := some cell
  cryst_const := none
  forces := none
  stress := none
  etot := none

/-- The outer retry loop over cell attempts: first successful attempt wins,
`none` when the budget is exhausted. -/
def cellLoop (samples : ℕ → Option Struct) : ℕ → ℕ → Option Struct
  | _, 0 => none
  | start, Nat.succ b =>
    match samples start with
    | some st => some st
    | none => cellLoop samples (start + 1) b

/-- Modelled from the spec: `get_random_struct(fail)`.  Exhausting the cell
retry budget raises `RandomStructureFail` with a diagnostic message when
`fail=True`, and falls back to an unconstrained random placement (ignoring
the minimum-distance constraint) when `fail=False`. -/
def get_random_struct (symbols : List String) (cell_maxtry : ℕ)
    (samples : ℕ → Matrix (Fin 3) (Fin 3) ℝ × Option (ℕ → Fin 3 → ℝ))
    (nofailCell : Matrix (Fin 3) (Fin 3) ℝ) (nofailFrac : ℕ → Fin 3 → ℝ)
    (fail : Bool) : Except String Struct :=
  match cellLoop
      (fun k => ((samples k).2).map (mkRandStruct symbols (samples k).1))
      0 cell_maxtry with
  | some st => .ok st
  | none =>
    if fail then
      .error "RandomStructureFail: failed to generate structure in cell_maxtry attempts"
    else
      .ok (mkRandStruct symbols nofailCell nofailFrac)

lemma cellLoop_eq_none (samples : ℕ → Option Struct)
    (h : ∀ k, samples k = none) :
    ∀ start budget, cellLoop samples start budget = none := by
  intro start budget
  induction budget generalizing start with
  | zero => rfl
  | succ b ih =>
    show cellLoop samples start (b + 1) = none
    rw [cellLoop, h start]
    exact ih (start + 1)

lemma cellLoop_mem (samples : ℕ → Option Struct) :
    ∀ start budget st, cellLoop samples start budget = some st →
      ∃ k, samples k = some st := by
  intro start budget
  induction budget generalizing start with
  | zero => intro st h; exact absurd h (by rw [cellLoop]; exact Option.noConfusion)
  | succ b ih =>
    intro st h
    rw [cellLoop] at h
    split at h
    next st2 heq => exact ⟨start, heq.trans h⟩
    next heq => exact ih (start + 1) st h

/-- C9: when every cell attempt fails and strict mode is requested the
generator fails with a `RandomStructureFail` carrying a nonempty diagnostic
message; with `fail=False` it always returns a structure whose `coords`,
`coords_frac`, `cell` and `cryst_const` are resolvable, whose symbols are
the requested ones, and whose `natoms` equals the number of symbols. -/
theorem rand_struct_spec (symbols : List String) (cell_maxtry : ℕ)
    (samples : ℕ → Matrix (Fin 3) (Fin 3) ℝ × Option (ℕ → Fin 3 → ℝ))
    (nofailCell : Matrix (Fin 3) (Fin 3) ℝ) (nofailFrac : ℕ → Fin 3 → ℝ) :
    ((∀ k, (samples k).2 = none) →
      ∃ msg, get_random_struct symbols cell_maxtry samples nofailCell
        nofailFrac true = .error msg ∧ msg ≠ "") ∧
    (∃ st, get_random_struct symbols cell_maxtry samples nofailCell
        nofailFrac false = .ok st ∧
      st.has_coords = true ∧ st.has_coords_frac = true ∧
      st.has_cell = true ∧ st.has_cc = true ∧
      st.symbols = symbols ∧ st.natoms = symbols.length) := by
  constructor
  · intro h
    have hnone : ∀ k, ((samples k).2).map (mkRandStruct symbols (samples k).1) = none := by
      intro k
      rw [h k]
      rfl
    refine ⟨"RandomStructureFail: failed to generate structure in cell_maxtry attempts",
      ?_, by decide⟩
    rw [get_random_struct, cellLoop_eq_none _ hnone 0 cell_maxtry]
    rfl
  · rw [get_random_struct]
    cases hres : cellLoop
        (fun k => ((samples k).2).map (mkRandStruct symbols (samples k).1))
        0 cell_maxtry with
    | some st =>
      obtain ⟨k, hk⟩ := cellLoop_mem _ 0 cell_maxtry st hres
      cases hs : (samples k).2 with
      | none => rw [hs] at hk; exact absurd hk (by exact Option.noConfusion)
      | some fr =>
        rw [hs] at hk
        have hst : st = mkRandStruct symbols (samples k).1 fr :=
          (Option.some.injEq _ _).mp hk.symm
        subst hst
        exact ⟨_, rfl, rfl, rfl, rfl, rfl, rfl, rfl⟩
    | none =>
      exact ⟨_, rfl, rfl, rfl, rfl, rfl, rfl, rfl⟩

/-- Witness for C9 with a one-attempt budget that always fails. -/
theorem rand_struct_spec_witness :
    (∀ k : ℕ, (((fun _ => ((1 : Matrix (Fin 3) (Fin 3) ℝ),
        (none : Option (ℕ → Fin 3 → ℝ)))) : ℕ →
        Matrix (Fin 3) (Fin 3) ℝ × Option (ℕ → Fin 3 → ℝ)) k).2 = none) ∧
    (∃ msg, get_random_struct ["Si"] 1
        (fun _ => (1, none)) 1 (fun _ _ => 0) true = .error msg ∧ msg ≠ "") ∧
    (∃ st, get_random_struct ["Si"] 1
        (fun _ => (1, none)) 1 (fun _ _ => 0) false = .ok st ∧
      st.has_coords = true ∧ st.has_coords_frac = true ∧
      st.has_cell = true ∧ st.has_cc = true ∧
      st.symbols = ["Si"] ∧ st.natoms = ["Si"].length) := by
  have h := rand_struct_spec ["Si"] 1 (fun _ => (1, none)) 1 (fun _ _ => 0)
  exact ⟨fun _ => rfl, h.1 (fun _ => rfl), h.2⟩

/-! ## Symmetry service: is_same_struct / spglib_get_primitive

Embedded directly from `src/pwtools/symmetry.py`.  The pyspglib bindings
(`spglib.get_spacegroup`, `spglib.find_primitive` composed with
`spglib2struct`) are external native-library calls and enter as function
parameters.  Structures appear here through their resolved attributes
(symbols, volume, crystallographic constants, fractional coordinates), and
the floating comparisons of `numpy.allclose` (rtol=1e-5, atol=1e-8) are
embedded exactly over ℚ. -/

/-- `numpy.isclose` for scalars: `|x - y| <= atol + rtol*|y|` with the
default tolerances. -/
def isclose (x y : ℚ) : Bool :=
  decide (|x - y| ≤ 1 / 100000000 + 1 / 100000 * |y|)

/-- `numpy.allclose` over a 6-vector. -/
def allclose6 (x y : Fin 6 → ℚ) : Bool :=
  (List.finRange 6).all (fun j => isclose (x j) (y j))

/-- `numpy.allclose` over an `n` x 3 coordinate array. -/
def allcloseFrac (n : ℕ) (x y : ℕ → Fin 3 → ℚ) : Bool :=
  (List.range n).all (fun i =>
    (List.finRange 3).all (fun j => isclose (x i j) (y i j)))

/-- The resolved attributes of a structure consumed by the symmetry
module. -/
structure RStruct where
  symbols : List String
  volume : ℚ
  cryst_const : Fin 6 → ℚ
  coords_frac : ℕ → Fin 3 → ℚ

/-- `natoms` is the length of the symbols list. -/
def RStruct.natoms (st : RStruct) : ℕ := st.symbols.length

/-- `is_same_struct` from `symmetry.py`: symbols and atom counts equal,
volume / crystallographic constants / fractional coordinates allclose, and
equal computed space groups.  `spacegroup` is the external
`spglib_get_spacegroup` binding. -/
def is_same_struct (spacegroup : RStruct → ℤ × String) (st1 st2 : RStruct) : Bool :=
  decide (st1.symbols = st2.symbols) && decide (st1.natoms = st2.natoms) &&
  (isclose st1.volume st2.volume &&
   allclose6 st1.cryst_const st2.cryst_const &&
   allcloseFrac st1.natoms st1.coords_frac st2.coords_frac) &&
  decide (spacegroup st1 = spacegroup st2)

/-- `spglib_get_primitive` from `symmetry.py`: reduce via the external
`find_primitive` binding (composed with `spglib2struct`); return `none`
when the candidate is the same structure as the input, else the
candidate. -/
def spglib_get_primitive (spacegroup : RStruct → ℤ × String)
    (find_primitive : RStruct → RStruct) (st : RStruct) : Option RStruct :=
  let candidate := find_primitive st
  if is_same_struct spacegroup candidate st then none else some candidate

lemma is_same_struct_iff (spacegroup : RStruct → ℤ × String) (st1 st2 : RStruct) :
    is_same_struct spacegroup st1 st2 = true ↔
      (st1.symbols = st2.symbols ∧ st1.natoms = st2.natoms ∧
       isclose st1.volume st2.volume = true ∧
       allclose6 st1.cryst_const st2.cryst_const = true ∧
       allcloseFrac st1.natoms st1.coords_frac st2.coords_frac = true ∧
       spacegroup st1 = spacegroup st2) := by
  simp [is_same_struct, Bool.and_eq_true, decide_eq_true_eq, and_assoc]

/-- C8: the primitive-cell function returns `None` exactly when the reduced
candidate is the same as the input under the equality oracle (symbols lists
identical, atom counts equal, volume, crystallographic constants and
fractional coordinates within floating tolerance, and computed space groups
equal), and otherwise returns the candidate structure. -/
theorem spglib_get_primitive_spec (spacegroup : RStruct → ℤ × String)
    (find_primitive : RStruct → RStruct) (st : RStruct) :
    (spglib_get_primitive spacegroup find_primitive st = none ↔
      ((find_primitive st).symbols = st.symbols ∧
       (find_primitive st).natoms = st.natoms ∧
       isclose (find_primitive st).volume st.volume = true ∧
       allclose6 (find_primitive st).cryst_const st.cryst_const = true ∧
       allcloseFrac (find_primitive st).natoms
         (find_primitive st).coords_frac st.coords_frac = true ∧
       spacegroup (find_primitive st) = spacegroup st)) ∧
    (¬((find_primitive st).symbols = st.symbols ∧
       (find_primitive st).natoms = st.natoms ∧
       isclose (find_primitive st).volume st.volume = true ∧
       allclose6 (find_primitive st).cryst_const st.cryst_const = true ∧
       allcloseFrac (find_primitive st).natoms
         (find_primitive st).coords_frac st.coords_frac = true ∧
       spacegroup (find_primitive st) = spacegroup st) →
      spglib_get_primitive spacegroup find_primitive st = some (find_primitive st)) := by
  rw [← is_same_struct_iff spacegroup (find_primitive st) st]
  by_cases h : is_same_struct spacegroup (find_primitive st) st = true
  · constructor
    · simp [spglib_get_primitive, h]
    · intro hcontra
      exact absurd h hcontra
  · constructor
    · constructor
      · intro hnone
        rw [spglib_get_primitive] at hnone
        simp only [Bool.not_eq_true] at h
        rw [if_neg (by rw [h]; exact Bool.false_ne_true)] at hnone
        exact absurd hnone (by exact Option.noConfusion)
      · intro hsame
        exact absurd hsame h
    · intro _
      rw [spglib_get_primitive]
      simp only [Bool.not_eq_true] at h
      rw [if_neg (by rw [h]; exact Bool.false_ne_true)]

/-- Concrete resolved structure used as the C8 witness input. -/
def rstructW : RStruct where
  symbols := ["H"]
  volume := 1
  cryst_const := fun _ => 1
  coords_frac := fun _ _ => 0

/-- Concrete external reducer for the C8 witness: returns a candidate with
a different volume. -/
def findPrimW (st : RStruct) : RStruct where
  symbols := st.symbols
  volume := st.volume + 1
  cryst_const := st.cryst_const
  coords_frac := st.coords_frac

/-- Concrete external spacegroup binding for the C8 witness. -/
def spacegroupW (_st : RStruct) : ℤ × String := (221, "Pm-3m")

/-- Witness for C8: a candidate differing in volume is returned as the
primitive cell. -/
theorem spglib_get_primitive_spec_witness :
    (¬((findPrimW rstructW).symbols = rstructW.symbols ∧
       (findPrimW rstructW).natoms = rstructW.natoms ∧
       isclose (findPrimW rstructW).volume rstructW.volume = true ∧
       allclose6 (findPrimW rstructW).cryst_const rstructW.cryst_const = true ∧
       allcloseFrac (findPrimW rstructW).natoms
         (findPrimW rstructW).coords_frac rstructW.coords_frac = true ∧
       spacegroupW (findPrimW rstructW) = spacegroupW rstructW)) ∧
    spglib_get_primitive spacegroupW findPrimW rstructW = some (findPrimW rstructW) := by
  have hneg : ¬((findPrimW rstructW).symbols = rstructW.symbols ∧
      (findPrimW rstructW).natoms = rstructW.natoms ∧
      isclose (findPrimW rstructW).volume rstructW.volume = true ∧
      allclose6 (findPrimW rstructW).cryst_const rstructW.cryst_const = true ∧
      allcloseFrac (findPrimW rstructW).natoms
        (findPrimW rstructW).coords_frac rstructW.coords_frac = true ∧
      spacegroupW (findPrimW rstructW) = spacegroupW rstructW) := by
    intro hc
    have hvol := hc.2.2.1
    have : isclose (findPrimW rstructW).volume rstructW.volume = false := by
      simp only [isclose, findPrimW, rstructW, decide_eq_false_iff_not]
      norm_num
    rw [this] at hvol
    exact Bool.false_ne_true hvol
  exact ⟨hneg, (spglib_get_primitive_spec spacegroupW findPrimW rstructW).2 hneg⟩

end Pwtools
